import Mathlib

/-!
Verification of the ai-servis core against its specification.

The definitions below are shallow embeddings of the C++ sources:
  * `src/external/tinymcp/src/protocol.cpp` (JSON-RPC codec),
  * `src/external/tinymcp/src/tools.cpp` and `server.cpp` (tool registry,
    tools/call dispatch),
  * `src/external/tinymcp/src/client.cpp` (pending-request correlator),
  * `src/platforms/cpp/core/ContextManager.cpp` (context store),
  * `src/src/Utils/HttpClient.cpp` and `src/src/Task/DownloadTask.cpp`
    (download job).
JSON text parsing itself belongs to the external jsoncpp library; the
embedding works on parsed JSON values, with `Option Json` standing for a
frame that may or may not parse.
-/

namespace AiServis

/-- Model of a jsoncpp `Json::Value`. -/
inductive Json where
  | null
  | bool (b : Bool)
  | num (n : Int)
  | str (s : String)
  | arr (items : List Json)
  | obj (fields : List (String × Json))

/-- `Json::Value::isNull()`. -/
def Json.isNull : Json → Bool
  | .null => true
  | _ => false

/-- Member lookup in an object's field list (first match). -/
def Json.lookupField (key : String) : List (String × Json) → Option Json
  | [] => none
  | (k, v) :: rest => if k = key then some v else Json.lookupField key rest

/-- `Json::Value::isMember(key)`. -/
def Json.isMember (j : Json) (key : String) : Bool :=
  match j with
  | .obj fields => (Json.lookupField key fields).isSome
  | _ => false

/-- `Json::Value::get(key, defaultValue)`. -/
def Json.getD (j : Json) (key : String) (dflt : Json) : Json :=
  match j with
  | .obj fields => (Json.lookupField key fields).getD dflt
  | _ => dflt

/-- `json[key]` on an object (member access after an `isMember` check). -/
def Json.member (j : Json) (key : String) : Json :=
  j.getD key .null

/-- `Json::Value::asString()` on the value kinds reached by the codec
(string values; conversions for the primitive kinds). -/
def Json.asStringD : Json → String
  | .str s => s
  | .null => ""
  | .bool b => if b then "true" else "false"
  | .num n => toString n
  | .arr _ => ""
  | .obj _ => ""

namespace Tinymcp

/-- `tinymcp::Request` (protocol.h): `id` and `jsonrpc` are inherited from
`Message`; both are `std::string` in the source. -/
structure Request where
  jsonrpc : String := "2.0"
  id : String := ""
  method : String := ""
  params : Json := .null

/-- `tinymcp::Response` (protocol.h). -/
structure Response where
  jsonrpc : String := "2.0"
  id : String := ""
  result : Json := .null
  error : Json := .null

/-- `tinymcp::Notification` (protocol.h): serialization never touches the
inherited `id`, which stays at its default `""`. -/
structure Notification where
  jsonrpc : String := "2.0"
  method : String := ""
  params : Json := .null

/-- The tagged message variant handled by `ProtocolSerializer`. -/
inductive Message where
  | req (r : Request)
  | res (r : Response)
  | notif (n : Notification)

/-- `Request::toJson` (protocol.cpp lines 15-24): writes `jsonrpc`, `id`,
`method`, and `params` only when non-null. -/
def Request.toJson (r : Request) : Json :=
  .obj ([("jsonrpc", .str r.jsonrpc), ("id", .str r.id), ("method", .str r.method)] ++
    (if r.params.isNull then [] else [("params", r.params)]))

/-- `Request::fromJson` (protocol.cpp lines 26-31). -/
def Request.fromJson (j : Json) : Request where
  jsonrpc := (j.getD "jsonrpc" (.str "2.0")).asStringD
  id := (j.getD "id" (.str "")).asStringD
  method := (j.getD "method" (.str "")).asStringD
  params := j.getD "params" .null

/-- `Response::toJson` (protocol.cpp lines 37-49): writes `error` when
non-null, otherwise `result`. -/
def Response.toJson (r : Response) : Json :=
  .obj ([("jsonrpc", .str r.jsonrpc), ("id", .str r.id)] ++
    (if r.error.isNull then [("result", r.result)] else [("error", r.error)]))

/-- `Response::fromJson` (protocol.cpp lines 51-61): reads `error` when the
member is present, otherwise `result`; the other field keeps its default. -/
def Response.fromJson (j : Json) : Response where
  jsonrpc := (j.getD "jsonrpc" (.str "2.0")).asStringD
  id := (j.getD "id" (.str "")).asStringD
  result := if j.isMember "error" then .null else j.getD "result" .null
  error := if j.isMember "error" then j.member "error" else .null

/-- `Notification::toJson` (protocol.cpp lines 66-73). -/
def Notification.toJson (n : Notification) : Json :=
  .obj ([("jsonrpc", .str n.jsonrpc), ("method", .str n.method)] ++
    (if n.params.isNull then [] else [("params", n.params)]))

/-- `Notification::fromJson` (protocol.cpp lines 75-79). -/
def Notification.fromJson (j : Json) : Notification where
  jsonrpc := (j.getD "jsonrpc" (.str "2.0")).asStringD
  method := (j.getD "method" (.str "")).asStringD
  params := j.getD "params" .null

/-- `Message::toJson` dispatch used by `ProtocolSerializer::serialize`
(protocol.cpp lines 83-89). -/
def Message.toJson : Message → Json
  | .req r => r.toJson
  | .res r => r.toJson
  | .notif n => n.toJson

/-- The two exception paths of `ProtocolSerializer::deserialize`:
`MCPException("Failed to parse JSON: ...")` and
`MCPException("Unknown message type")`. -/
inductive DeserializeErr where
  | parseFail
  | unknownType
deriving DecidableEq

/-- `ProtocolSerializer::deserialize` (protocol.cpp lines 91-122). The
jsoncpp text-parsing stage is modeled by the `Option Json` input: `none`
is a frame that fails to parse. Classification: `method` + `id` gives a
Request, `method` alone a Notification, `result`/`error` a Response, and
anything else throws. -/
def ProtocolSerializer.deserialize (input : Option Json) : Except DeserializeErr Message :=
  match input with
  | none => .error .parseFail
  | some j =>
    if j.isMember "method" then
      if j.isMember "id" then .ok (.req (Request.fromJson j))
      else .ok (.notif (Notification.fromJson j))
    else if j.isMember "result" || j.isMember "error" then
      .ok (.res (Response.fromJson j))
    else
      .error .unknownType

/-- `ProtocolSerializer::serialize` (protocol.cpp lines 83-89), up to the
jsoncpp value-to-text rendering which is the identity on the JSON value. -/
def ProtocolSerializer.serialize (m : Message) : Json := m.toJson

/-- Well-formedness from the spec's data model: a Response carries exactly
one of `result`/`error`, so it never has both non-null. Requests and
Notifications are unconstrained. -/
def Message.wf : Message → Prop
  | .res r => r.result = Json.null ∨ r.error = Json.null
  | _ => True

end Tinymcp

/-! Generic association map, modelling `std::map` / `std::unordered_map`
keyed by strings: insert-or-assign, find, erase. -/

/-- `m[k] = v` on a `std::map`: overwrite the existing entry or append. -/
def mapAssign {α : Type} (k : String) (v : α) : List (String × α) → List (String × α)
  | [] => [(k, v)]
  | (k', v') :: rest => if k' = k then (k, v) :: rest else (k', v') :: mapAssign k v rest

/-- `m.find(k)` on a `std::map`. -/
def mapFind {α : Type} (k : String) : List (String × α) → Option α
  | [] => none
  | (k', v) :: rest => if k' = k then some v else mapFind k rest

/-- `m.erase(k)` on a `std::map`. -/
def mapErase {α : Type} (k : String) : List (String × α) → List (String × α)
  | [] => []
  | (k', v') :: rest => if k' = k then mapErase k rest else (k', v') :: mapErase k rest

namespace Tinymcp

/-- `tinymcp::Tool` (tools.h): the handler is a `std::function` that may be
empty (`none`) and whose body may throw (`Except.error`). -/
structure Tool where
  name : String := ""
  description : String := ""
  inputSchema : Json := .null
  handler : Option (Json → Except String Json) := none

/-- `Tool::validate` (tools.cpp lines 26-42): a null schema accepts
everything; when the schema has an array member `required`, each listed
field must be a member of `arguments`; nothing else is checked. -/
def Tool.validate (t : Tool) (arguments : Json) : Bool :=
  if t.inputSchema.isNull then
    true
  else if t.inputSchema.isMember "required" then
    match t.inputSchema.member "required" with
    | .arr reqs => reqs.all (fun r => arguments.isMember r.asStringD)
    | _ => true
  else
    true

/-- `tinymcp::ToolRegistry` (tools.h): a `std::map<std::string, Tool>`. -/
abbrev ToolRegistry := List (String × Tool)

/-- `ToolRegistry::registerTool` (tools.cpp lines 44-46):
`tools[tool.name] = tool`, i.e. map insert-or-assign; it returns `void`
and has no failure path. `Server::registerTool` (server.cpp lines 43-49)
forwards to it under the server mutex. -/
def ToolRegistry.registerTool (tool : Tool) (reg : ToolRegistry) : ToolRegistry :=
  mapAssign tool.name tool reg

/-- `ToolRegistry::getTool` (tools.cpp lines 52-55). -/
def ToolRegistry.getTool (name : String) (reg : ToolRegistry) : Option Tool :=
  mapFind name reg

/-- `ToolRegistry::hasTool` (tools.cpp lines 65-67). -/
def ToolRegistry.hasTool (name : String) (reg : ToolRegistry) : Bool :=
  (ToolRegistry.getTool name reg).isSome

/-- Outcome recorded on the `Response` by a server handler: either
`response.result` is set, or `response.error` gets a code and message. -/
inductive CallOutcome where
  | success (result : Json)
  | failure (code : Int) (message : String)

/-- `Server::handleCallTool` (server.cpp lines 154-179): reads `name` and
`arguments` from the request params, looks the tool up, and runs its
handler on the raw arguments; a thrown handler exception becomes error
-32603. `Tool::validate` is never called on this path. -/
def Server.handleCallTool (reg : ToolRegistry) (params : Json) : CallOutcome :=
  let toolName := (params.getD "name" (.str "")).asStringD
  let arguments := params.getD "arguments" .null
  match ToolRegistry.getTool toolName reg with
  | none => .failure (-32602) ("Tool not found: " ++ toolName)
  | some tool =>
    match tool.handler with
    | some h =>
      match h arguments with
      | .ok r => .success r
      | .error e => .failure (-32603) e
    | none => .failure (-32603) "Tool handler not implemented"

/-- The `pendingRequests` map of `Client::Impl` (client.cpp), reduced to
its key set: the promise payloads play no part in id bookkeeping. -/
structure ClientState where
  pending : List String := []

/-- The insertion done by `Client::Impl::waitForResponse` (client.cpp
lines 32-39): `pendingRequests[id] = std::move(promise)` creates the key
or overwrites the slot of an existing one. -/
def ClientState.insertPending (s : ClientState) (id : String) : ClientState :=
  if id ∈ s.pending then s else { pending := id :: s.pending }

/-- `Client::onResponse` (client.cpp lines 171-179): a matching entry is
fulfilled and erased; a response without a matching entry is ignored. -/
def ClientState.onResponse (s : ClientState) (id : String) : ClientState :=
  { pending := s.pending.filter (fun x => x ≠ id) }

/-- How a `sendRequest` call finishes: the future was fulfilled by a
matching response, or `wait_for` hit the deadline and
`MCPException("Request timeout")` was thrown. -/
inductive SendOutcome where
  | response
  | timeoutThrown
deriving DecidableEq

/-- `Client::sendRequest` / `Client::Impl::waitForResponse` (client.cpp
lines 32-47 and 96-104): the entry for `id` is inserted, then either a
matching response arrives before the deadline (`onResponse` fulfills and
erases the entry) or the timeout fires and the exception is thrown with
the map untouched. `arrives` selects which of the two happens. -/
def ClientState.sendRequest (s : ClientState) (id : String) (arrives : Bool) :
    ClientState × SendOutcome :=
  let s1 := s.insertPending id
  if arrives then (s1.onResponse id, .response)
  else (s1, .timeoutThrown)

end Tinymcp

namespace HttpDl

/-- Result of `curl_easy_perform`: `ok` is `CURLE_OK`; `aborted` is
`CURLE_ABORTED_BY_CALLBACK` (the progress callback returned 1 because
`abort_requested_` was set); `ioErr` is any other failure. -/
inductive CurlRes where
  | ok
  | aborted
  | ioErr
deriving DecidableEq

/-- Post-state of a transfer: whether the file at the output path is still
on disk, and the boolean the function returned. -/
structure DlOutcome where
  fileRemains : Bool
  retval : Bool
deriving DecidableEq

/-- `HttpClient::downloadFile` (HttpClient.cpp lines 51-77): after the
transfer, `if (res != CURLE_OK || abort_requested_)` the file at
`output_path` is removed and `false` returned; otherwise the file stays
and `true` is returned. `abortReq` is the final value of
`abort_requested_` (set by `HttpClient::abort`, which
`DownloadTask::cancel` calls). -/
def downloadFile (res : CurlRes) (abortReq : Bool) : DlOutcome :=
  match res, abortReq with
  | .ok, false => { fileRemains := true, retval := true }
  | _, _ => { fileRemains := false, retval := false }

/-- `HttpClient::resumeDownload` (HttpClient.cpp lines 79-98): when the
partial file does not exist it falls back to `downloadFile`; otherwise it
appends to the existing file and returns `res == CURLE_OK` without ever
removing the file. This path installs no progress callback, so a pending
abort request is not observed by the transfer. -/
def resumeDownload (fileExists : Bool) (res : CurlRes) (abortReq : Bool) : DlOutcome :=
  if fileExists then
    { fileRemains := true, retval := res = CurlRes.ok }
  else
    downloadFile res abortReq

/-- Modelled from the spec: `SessionPersistence::markSessionComplete` and
`markSessionFailed` are declared in `src/src/Utils/SessionPersistence.hpp`
but defined nowhere under src. Per that header's documented status values
("active", "paused", "completed", "failed") and the spec's error table
(JobFailed sets the failed status), they record "completed" on success
and "failed" on failure. -/
def markStatus (success : Bool) : String :=
  if success then "completed" else "failed"

/-- `DownloadTask::execute`, fresh-download arm (DownloadTask.cpp lines
43-58: no resumable session bytes): runs `downloadFile`, then marks the
session completed on success and failed otherwise; returns the transfer
outcome together with the recorded status string. -/
def executeFresh (res : CurlRes) (abortReq : Bool) : DlOutcome × String :=
  let o := downloadFile res abortReq
  (o, markStatus o.retval)

end HttpDl

namespace WebGrab

/-- `WebGrab::SessionContext` (ContextManager.h lines 27-56). Time points
are modelled as whole seconds since the epoch; string maps become
association lists. -/
structure SessionContext where
  sessionId : String := ""
  userId : String := ""
  interfaceType : String := ""
  createdAt : Nat := 0
  lastAccessed : Nat := 0
  commandHistory : List String := []
  responseHistory : List String := []
  «variables» : List (String × String) := []
  lastIntent : String := ""
  lastParameters : List (String × String) := []
  lastUsedService : String := ""
  serviceState : List (String × String) := []

/-- `SessionContext::isActive` (ContextManager.h lines 50-54):
`duration_cast<minutes>(now - lastAccessed).count() < 30`, with the cast
truncating whole minutes out of the seconds difference. -/
def SessionContext.isActive (ctx : SessionContext) (now : Nat) : Bool :=
  (now - ctx.lastAccessed) / 60 < 30

/-- `WebGrab::UserContext` (ContextManager.h lines 15-22). -/
structure UserContext where
  userId : String := ""
  currentLocation : String := ""
  preferredLanguage : String := ""
  timezone : String := ""
  preferences : List (String × String) := []
  lastActivity : Nat := 0

/-- The session-related state of a `ContextManager`: the in-memory
`sessionsCache` and the durable `sessions/<id>.json` store kept by
`FileContextPersistence`, each keyed by session id. -/
structure CMState where
  sessionsCache : List (String × SessionContext) := []
  sessionStore : List (String × SessionContext) := []

/-- `ContextManager::addCommandToHistory` (ContextManager.cpp lines
435-456): a cache miss does nothing; otherwise both histories get one
entry appended, both are trimmed at the front when the command history
exceeds 50, `lastAccessed` is refreshed and the session is persisted. -/
def ContextManager.addCommandToHistory (st : CMState)
    (sessionId command response : String) (now : Nat) : CMState :=
  match mapFind sessionId st.sessionsCache with
  | none => st
  | some ctx =>
    let ch := ctx.commandHistory ++ [command]
    let rh := ctx.responseHistory ++ [response]
    let ch2 := if 50 < ch.length then ch.drop 1 else ch
    let rh2 := if 50 < ch.length then rh.drop 1 else rh
    let ctx2 := { ctx with
      commandHistory := ch2
      responseHistory := rh2
      lastAccessed := now }
    { sessionsCache := mapAssign sessionId ctx2 st.sessionsCache
      sessionStore := mapAssign ctx2.sessionId ctx2 st.sessionStore }

/-- `ContextManager::cleanupExpiredSessions` (ContextManager.cpp lines
370-386): collect the cached sessions that are no longer active, then
remove each from the cache and delete its durable file. -/
def ContextManager.cleanupExpiredSessions (st : CMState) (now : Nat) : CMState :=
  let expired := (st.sessionsCache.filter (fun p => !(p.2.isActive now))).map Prod.fst
  { sessionsCache := expired.foldl (fun c sid => mapErase sid c) st.sessionsCache
    sessionStore := expired.foldl (fun s sid => mapErase sid s) st.sessionStore }

/-- The key-value entries of a serialized JSON object body, written as
`    "k": "v"` lines joined by `,\n` (the `first` flag in the loops of
`serializeUserContext`/`serializeSessionContext`). -/
def serializeEntries (entries : List (String × String)) : String :=
  String.intercalate ",\n" (entries.map (fun p => "    \"" ++ p.1 ++ "\": \"" ++ p.2 ++ "\""))

/-- A serialized JSON string array body: quoted items joined by `, `. -/
def serializeItems (items : List String) : String :=
  String.intercalate ", " (items.map (fun s => "\"" ++ s ++ "\""))

/-- `FileContextPersistence::serializeSessionContext` (ContextManager.cpp
lines 145-184), transcribed stream insert by stream insert. -/
def serializeSessionContext (context : SessionContext) : String :=
  "\x7b\n" ++
  "  \"sessionId\": \"" ++ context.sessionId ++ "\",\n" ++
  "  \"userId\": \"" ++ context.userId ++ "\",\n" ++
  "  \"interfaceType\": \"" ++ context.interfaceType ++ "\",\n" ++
  "  \"createdAt\": " ++ toString context.createdAt ++ ",\n" ++
  "  \"lastAccessed\": " ++ toString context.lastAccessed ++ ",\n" ++
  "  \"lastIntent\": \"" ++ context.lastIntent ++ "\",\n" ++
  "  \"lastUsedService\": \"" ++ context.lastUsedService ++ "\",\n" ++
  "  \"commandHistory\": [" ++ serializeItems context.commandHistory ++ "],\n" ++
  "  \"responseHistory\": [" ++ serializeItems context.responseHistory ++ "],\n" ++
  "  \"variables\": \x7b\n" ++ serializeEntries context.«variables» ++ "\n  \x7d\n" ++
  "\x7d"

/-- `FileContextPersistence::serializeUserContext` (ContextManager.cpp
lines 123-143). -/
def serializeUserContext (context : UserContext) : String :=
  "\x7b\n" ++
  "  \"userId\": \"" ++ context.userId ++ "\",\n" ++
  "  \"currentLocation\": \"" ++ context.currentLocation ++ "\",\n" ++
  "  \"preferredLanguage\": \"" ++ context.preferredLanguage ++ "\",\n" ++
  "  \"timezone\": \"" ++ context.timezone ++ "\",\n" ++
  "  \"lastActivity\": " ++ toString context.lastActivity ++ ",\n" ++
  "  \"preferences\": \x7b\n" ++ serializeEntries context.preferences ++ "\n  \x7d\n" ++
  "\x7d"

/-- Filesystem operations a persistence write can perform. `openTrunc` is
`std::ofstream file(path)`: it creates or truncates the file, leaving it
empty; `writeAll` streams the full content; `renameFile` atomically moves
`src` over `dst`. -/
inductive FsOp where
  | openTrunc (path : String)
  | writeAll (path : String) (content : String)
  | renameFile (src dst : String)

/-- Whether an operation is a rename. -/
def FsOp.isRen : FsOp → Bool
  | .renameFile _ _ => true
  | _ => false

/-- A filesystem snapshot: path to content. -/
abbrev Fs := List (String × String)

/-- Effect of one filesystem operation. -/
def FsOp.apply (fs : Fs) : FsOp → Fs
  | .openTrunc p => mapAssign p "" fs
  | .writeAll p c => mapAssign p c fs
  | .renameFile src dst =>
    match mapFind src fs with
    | none => fs
    | some c => mapAssign dst c (mapErase src fs)

/-- Run a sequence of filesystem operations. -/
def runOps (fs : Fs) : List FsOp → Fs
  | [] => fs
  | op :: rest => runOps (FsOp.apply fs op) rest

/-- File name used by the session persistence layer. -/
def sessionFileName (sessionId : String) : String :=
  "sessions/" ++ sessionId ++ ".json"

/-- File name used by the user persistence layer. -/
def userFileName (userId : String) : String :=
  "users/" ++ userId ++ ".json"

/-- `FileContextPersistence::saveSessionContext` (ContextManager.cpp lines
65-74): opens an ofstream directly on `sessions/<sessionId>.json`
(truncating it in place) and streams the serialized text into it; no
temporary file, no rename. -/
def saveSessionContextOps (context : SessionContext) : List FsOp :=
  [.openTrunc (sessionFileName context.sessionId),
   .writeAll (sessionFileName context.sessionId) (serializeSessionContext context)]

/-- `FileContextPersistence::saveUserContext` (ContextManager.cpp lines
36-45): same direct-write shape on `users/<userId>.json`. -/
def saveUserContextOps (context : UserContext) : List FsOp :=
  [.openTrunc (userFileName context.userId),
   .writeAll (userFileName context.userId) (serializeUserContext context)]

end WebGrab

/-! Spec-side definitions and concrete fixtures used by the theorems. -/

namespace Tinymcp

/-- The frame classification as the spec words it, with the error clause
stated as the code actually behaves (amended claim C5): `method` plus
`id` is a Request, `method` without `id` a Notification, `result` or
`error` a Response, and any other input — unparseable text included —
raises an exception instead of producing a -32700 Response. -/
def specClassify (input : Option Json) : Except DeserializeErr Message :=
  match input with
  | none => .error .parseFail
  | some j =>
    if j.isMember "method" = true ∧ j.isMember "id" = true then
      .ok (.req (Request.fromJson j))
    else if j.isMember "method" = true ∧ ¬ j.isMember "id" = true then
      .ok (.notif (Notification.fromJson j))
    else if j.isMember "result" = true ∨ j.isMember "error" = true then
      .ok (.res (Response.fromJson j))
    else
      .error .unknownType

/-- A tool named "echo" with description "first". -/
def echoFirst : Tool :=
  { name := "echo", description := "first" }

/-- A second tool reusing the name "echo", description "second". -/
def echoSecond : Tool :=
  { name := "echo", description := "second" }

/-- A tool whose schema declares a required field "x" and whose handler
returns the text "ran". -/
def reqToolCex : Tool :=
  { name := "reqTool"
    description := "needs x"
    inputSchema := Json.obj [("type", .str "object"), ("required", .arr [.str "x"])]
    handler := some (fun _ => .ok (.str "ran")) }

end Tinymcp

namespace WebGrab

/-- Invariant I3/P4 on a session: both histories have the same length,
bounded by 50. -/
def histInv (ctx : SessionContext) : Prop :=
  ctx.commandHistory.length = ctx.responseHistory.length ∧
    ctx.commandHistory.length ≤ 50

/-- A concrete cached session used by the witnesses. -/
def ctxFix : SessionContext :=
  { sessionId := "s", userId := "u", interfaceType := "text"
    lastAccessed := 0
    commandHistory := ["a"], responseHistory := ["b"] }

/-- A concrete manager state caching `ctxFix` under "s". -/
def stFix : CMState :=
  { sessionsCache := [("s", ctxFix)], sessionStore := [("s", ctxFix)] }

/-- A concrete session for the persistence counterexample. -/
def demoSession : SessionContext :=
  { sessionId := "sess1" }

end WebGrab

/-! Helper lemmas about the association-map operations. -/

theorem mapFind_mapAssign_self {α : Type} (k : String) (v : α) (m : List (String × α)) :
    mapFind k (mapAssign k v m) = some v := by
  induction m with
  | nil => simp [mapAssign, mapFind]
  | cons p rest ih =>
    obtain ⟨k', v'⟩ := p
    by_cases h : k' = k
    · simp [mapAssign, h, mapFind]
    · simp [mapAssign, h, mapFind, ih]

theorem mapFind_mapAssign_ne {α : Type} (k n : String) (v : α) (m : List (String × α))
    (h : n ≠ k) : mapFind n (mapAssign k v m) = mapFind n m := by
  induction m with
  | nil => simp [mapAssign, mapFind, Ne.symm h]
  | cons p rest ih =>
    obtain ⟨k', v'⟩ := p
    by_cases hk : k' = k
    · subst hk
      simp [mapAssign, mapFind, Ne.symm h]
    · by_cases hn : k' = n <;> simp [mapAssign, hk, mapFind, hn, ih, h]

theorem mapFind_mem {α : Type} {k : String} {v : α} {m : List (String × α)}
    (h : mapFind k m = some v) : (k, v) ∈ m := by
  induction m with
  | nil => simp [mapFind] at h
  | cons p rest ih =>
    obtain ⟨k', v'⟩ := p
    by_cases hk : k' = k
    · subst hk
      simp [mapFind] at h
      simp [h]
    · simp [mapFind, hk] at h
      exact List.mem_cons_of_mem _ (ih h)

theorem mem_mapFind_of_nodup {α : Type} {m : List (String × α)}
    (h : (m.map Prod.fst).Nodup) {k : String} {v : α} (hm : (k, v) ∈ m) :
    mapFind k m = some v := by
  induction m with
  | nil => simp at hm
  | cons p rest ih =>
    obtain ⟨k', v'⟩ := p
    rw [List.map_cons, List.nodup_cons] at h
    obtain ⟨h1, h2⟩ := h
    rcases List.mem_cons.mp hm with heq | hmem
    · cases heq
      simp [mapFind]
    · by_cases hk : k' = k
      · subst hk
        exact absurd (List.mem_map.mpr ⟨(k', v), hmem, rfl⟩) h1
      · simp only [mapFind, if_neg hk]
        exact ih h2 hmem

theorem mapFind_mapErase_self {α : Type} (k : String) (m : List (String × α)) :
    mapFind k (mapErase k m) = none := by
  induction m with
  | nil => rfl
  | cons p rest ih =>
    obtain ⟨k', v'⟩ := p
    by_cases hk : k' = k
    · simp [mapErase, hk, ih]
    · simp [mapErase, hk, mapFind, ih]

theorem mapFind_mapErase_ne {α : Type} (k n : String) (m : List (String × α))
    (h : n ≠ k) : mapFind n (mapErase k m) = mapFind n m := by
  induction m with
  | nil => rfl
  | cons p rest ih =>
    obtain ⟨k', v'⟩ := p
    by_cases hk : k' = k
    · subst hk
      simp [mapErase, mapFind, Ne.symm h, ih]
    · by_cases hn : k' = n <;> simp [mapErase, hk, mapFind, hn, ih, h]

theorem mapFind_none_foldlErase {α : Type} (ids : List String) (k : String)
    (m : List (String × α)) (h : mapFind k m = none) :
    mapFind k (ids.foldl (fun c i => mapErase i c) m) = none := by
  induction ids generalizing m with
  | nil => simpa using h
  | cons i rest ih =>
    simp only [List.foldl_cons]
    apply ih
    by_cases hk : k = i
    · subst hk
      exact mapFind_mapErase_self _ _
    · rw [mapFind_mapErase_ne _ _ _ hk]
      exact h

theorem mapFind_foldlErase_of_mem {α : Type} (ids : List String) (k : String)
    (h : k ∈ ids) (m : List (String × α)) :
    mapFind k (ids.foldl (fun c i => mapErase i c) m) = none := by
  induction ids generalizing m with
  | nil => simp at h
  | cons i rest ih =>
    simp only [List.foldl_cons]
    by_cases hr : k ∈ rest
    · exact ih hr _
    · have hki : k = i := by
        rcases List.mem_cons.mp h with a | b
        · exact a
        · exact absurd b hr
      subst hki
      exact mapFind_none_foldlErase _ _ _ (mapFind_mapErase_self _ _)

theorem mapFind_foldlErase_of_notmem {α : Type} (ids : List String) (k : String)
    (h : k ∉ ids) (m : List (String × α)) :
    mapFind k (ids.foldl (fun c i => mapErase i c) m) = mapFind k m := by
  induction ids generalizing m with
  | nil => rfl
  | cons i rest ih =>
    simp only [List.foldl_cons]
    have hk : k ≠ i := fun hh => h (hh ▸ List.mem_cons_self i rest)
    rw [ih (fun hh => h (List.mem_cons_of_mem _ hh)) _, mapFind_mapErase_ne _ _ _ hk]

/-! Claim theorems. -/

/-- Claim C6: deserializing the serialization of any encodable message —
a Request (ids are strings in this codec), a Response carrying exactly
one of result/error, or a Notification — yields the same message
field-wise. -/
theorem roundtrip_serialize_deserialize (m : Tinymcp.Message) (hwf : m.wf) :
    Tinymcp.ProtocolSerializer.deserialize
      (some (Tinymcp.ProtocolSerializer.serialize m)) = Except.ok m := by
  cases m with
  | req r =>
    obtain ⟨jsonrpc, id, method, params⟩ := r
    cases params <;> rfl
  | notif n =>
    obtain ⟨jsonrpc, method, params⟩ := n
    cases params <;> rfl
  | res r =>
    obtain ⟨jsonrpc, id, result, error⟩ := r
    rcases hwf with h | h
    · cases h
      cases error <;> rfl
    · cases h
      rfl

/-- Witness for C6 at a concrete tools/list request. -/
theorem roundtrip_serialize_deserialize_witness :
    Tinymcp.ProtocolSerializer.deserialize
      (some (Tinymcp.ProtocolSerializer.serialize
        (Tinymcp.Message.req { id := "1", method := "tools/list" }))) =
      Except.ok (Tinymcp.Message.req { id := "1", method := "tools/list" }) :=
  roundtrip_serialize_deserialize (Tinymcp.Message.req { id := "1", method := "tools/list" })
    trivial

/-- Claim C5 counterexample: on unparseable input, and on a JSON object
with none of the recognized members, `deserialize` throws an MCPException;
no parse-error Response with id null and code -32700 is emitted. -/
theorem deserialize_no_parse_error_response_cex :
    Tinymcp.ProtocolSerializer.deserialize none =
      Except.error Tinymcp.DeserializeErr.parseFail ∧
    Tinymcp.ProtocolSerializer.deserialize (some (Json.obj [])) =
      Except.error Tinymcp.DeserializeErr.unknownType :=
  ⟨rfl, rfl⟩

/-- Claim C5 amended: deserialization classifies by structural match —
`method` plus `id` gives a Request, `method` without `id` a Notification,
`result` or `error` a Response — and any other input, unparseable text
included, raises an exception instead of emitting a -32700 Response. -/
theorem deserialize_classification (input : Option Json) :
    Tinymcp.ProtocolSerializer.deserialize input = Tinymcp.specClassify input := by
  cases input with
  | none => rfl
  | some j =>
    by_cases hm : j.isMember "method" = true <;>
      by_cases hi : j.isMember "id" = true <;>
        simp [Tinymcp.ProtocolSerializer.deserialize, Tinymcp.specClassify, hm, hi]

/-- Claim C1 counterexample: registering a second tool named "echo"
succeeds (registerTool has no failure path) and replaces the first
registration — afterwards the tool stored under "echo" has description
"second", so the previously registered tool did not stay unchanged. -/
theorem registerTool_duplicate_overwrites_cex :
    (Tinymcp.ToolRegistry.getTool "echo"
        (Tinymcp.ToolRegistry.registerTool Tinymcp.echoSecond
          (Tinymcp.ToolRegistry.registerTool Tinymcp.echoFirst []))).map
      Tinymcp.Tool.description = some "second" := rfl

/-- Claim C1 amended: registerTool never fails; registering a tool whose
name is already present silently replaces the existing registration
(std::map assignment), and registrations under other names are
untouched. -/
theorem registerTool_assign_semantics (reg : Tinymcp.ToolRegistry) (t : Tinymcp.Tool) :
    Tinymcp.ToolRegistry.getTool t.name (Tinymcp.ToolRegistry.registerTool t reg) = some t ∧
    ∀ n, n ≠ t.name →
      Tinymcp.ToolRegistry.getTool n (Tinymcp.ToolRegistry.registerTool t reg) =
        Tinymcp.ToolRegistry.getTool n reg := by
  constructor
  · exact mapFind_mapAssign_self t.name t reg
  · intro n hn
    exact mapFind_mapAssign_ne t.name n t reg hn

/-- Witness for the amended C1 at the concrete duplicate "echo". -/
theorem registerTool_assign_semantics_witness :
    Tinymcp.ToolRegistry.getTool "echo"
        (Tinymcp.ToolRegistry.registerTool Tinymcp.echoSecond
          (Tinymcp.ToolRegistry.registerTool Tinymcp.echoFirst [])) =
      some Tinymcp.echoSecond ∧
    Tinymcp.ToolRegistry.getTool "other"
        (Tinymcp.ToolRegistry.registerTool Tinymcp.echoSecond
          (Tinymcp.ToolRegistry.registerTool Tinymcp.echoFirst [])) =
      Tinymcp.ToolRegistry.getTool "other"
        (Tinymcp.ToolRegistry.registerTool Tinymcp.echoFirst []) :=
  ⟨(registerTool_assign_semantics
      (Tinymcp.ToolRegistry.registerTool Tinymcp.echoFirst []) Tinymcp.echoSecond).1,
   (registerTool_assign_semantics
      (Tinymcp.ToolRegistry.registerTool Tinymcp.echoFirst []) Tinymcp.echoSecond).2
     "other" (by decide)⟩

/-- Claim C2 counterexample: calling the registered tool "reqTool" with
empty arguments — which fail the tool's own validate because the required
field "x" is missing — still runs the handler and succeeds; no
InvalidParams (-32602) error is produced. -/
theorem handleCallTool_skips_validation_cex :
    Tinymcp.Server.handleCallTool [("reqTool", Tinymcp.reqToolCex)]
        (Json.obj [("name", .str "reqTool"), ("arguments", Json.obj [])]) =
      Tinymcp.CallOutcome.success (.str "ran") ∧
    Tinymcp.reqToolCex.validate (Json.obj []) = false :=
  ⟨rfl, rfl⟩

/-- Claim C2 amended: handleCallTool performs no argument validation: for
any registered tool with a handler, the handler runs on the raw
arguments and its outcome (result, or thrown error as code -32603) is
returned regardless of the inputSchema; `Tool::validate` — itself
checking only required-field presence — is never consulted. -/
theorem handleCallTool_runs_handler_unvalidated (reg : Tinymcp.ToolRegistry)
    (name : String) (t : Tinymcp.Tool) (h : Json → Except String Json) (args : Json)
    (hfind : Tinymcp.ToolRegistry.getTool name reg = some t)
    (hh : t.handler = some h) :
    Tinymcp.Server.handleCallTool reg
        (Json.obj [("name", .str name), ("arguments", args)]) =
      (match h args with
       | .ok r => Tinymcp.CallOutcome.success r
       | .error e => Tinymcp.CallOutcome.failure (-32603) e) := by
  unfold Tinymcp.Server.handleCallTool
  simp [Json.getD, Json.lookupField, Json.asStringD, hfind, hh]

/-- Witness for the amended C2 at the concrete "reqTool" call. -/
theorem handleCallTool_runs_handler_unvalidated_witness :
    Tinymcp.Server.handleCallTool [("reqTool", Tinymcp.reqToolCex)]
        (Json.obj [("name", .str "reqTool"), ("arguments", Json.obj [])]) =
      Tinymcp.CallOutcome.success (.str "ran") :=
  handleCallTool_runs_handler_unvalidated [("reqTool", Tinymcp.reqToolCex)]
    "reqTool" Tinymcp.reqToolCex (fun _ => .ok (.str "ran")) (Json.obj []) rfl rfl

/-- Claim C3 counterexample: a sendRequest whose response never arrives
times out — the MCPException is thrown and the id "42" is still in the
pending map afterwards, so the entry is not removed on deadline expiry. -/
theorem sendRequest_timeout_leaks_id_cex :
    Tinymcp.ClientState.sendRequest { pending := [] } "42" false =
      ({ pending := ["42"] }, Tinymcp.SendOutcome.timeoutThrown) :=
  rfl

/-- Claim C3 amended: the pending entry for a request id is removed when
a matching Response arrives before the deadline; when the timeout fires,
sendRequest throws with the entry still in the pending map, so a
timed-out id is leaked. -/
theorem sendRequest_pending_semantics (s : Tinymcp.ClientState) (id : String) :
    id ∉ ((Tinymcp.ClientState.sendRequest s id true).1).pending ∧
    id ∈ ((Tinymcp.ClientState.sendRequest s id false).1).pending ∧
    (Tinymcp.ClientState.sendRequest s id false).2 =
      Tinymcp.SendOutcome.timeoutThrown := by
  refine ⟨?_, ?_, rfl⟩
  · simp [Tinymcp.ClientState.sendRequest, Tinymcp.ClientState.onResponse]
  · simp only [Tinymcp.ClientState.sendRequest, Tinymcp.ClientState.insertPending]
    by_cases h : id ∈ s.pending <;> simp [h]

/-- Claim C8 counterexample: a download job resuming an existing partial
file does not observe an abort (no progress callback is installed on the
resume path): the transfer runs to its own end and the partial file is
never deleted — `resumeDownload` leaves the file in place both when the
transfer completes and when it fails; and an aborted fresh download is
recorded with status "failed", never as Aborted. -/
theorem abort_resumed_download_leaves_partial_cex :
    HttpDl.resumeDownload true .ok true =
      { fileRemains := true, retval := true } ∧
    HttpDl.resumeDownload true .ioErr true =
      { fileRemains := true, retval := false } ∧
    (HttpDl.executeFresh .aborted true).2 = "failed" := by
  decide

/-- Claim C8 amended: aborting a fresh (non-resumed) download removes the
partial file at the output path and makes downloadFile return false, with
the job then recorded as "failed" (no code path assigns the Aborted
status); aborting a resumed download never removes the partial file. -/
theorem abort_download_file_semantics (res : HttpDl.CurlRes) :
    HttpDl.downloadFile res true = { fileRemains := false, retval := false } ∧
    (HttpDl.executeFresh res true).2 = "failed" ∧
    ∀ ab, (HttpDl.resumeDownload true res ab).fileRemains = true := by
  cases res <;> exact ⟨rfl, rfl, fun ab => rfl⟩

/-- Claim C10: addCommandToHistory on a session id absent from the
in-memory cache leaves the whole state unchanged — it does not consult
the durable layer, appends to no history, and persists nothing. -/
theorem addCommandToHistory_missing_session_noop
    (st : WebGrab.CMState) (sid cmd resp : String) (now : Nat)
    (h : mapFind sid st.sessionsCache = none) :
    WebGrab.ContextManager.addCommandToHistory st sid cmd resp now = st := by
  unfold WebGrab.ContextManager.addCommandToHistory
  rw [h]

/-- Witness for C10 at a ghost session id on the concrete state. -/
theorem addCommandToHistory_missing_session_noop_witness :
    WebGrab.ContextManager.addCommandToHistory WebGrab.stFix "ghost" "c" "r" 1 =
      WebGrab.stFix :=
  addCommandToHistory_missing_session_noop WebGrab.stFix "ghost" "c" "r" 1 rfl

/-- Claim C4: addCommandToHistory appends exactly one entry to each
history of the cached session, trims both at the front when the 50 bound
is exceeded, refreshes lastAccessed and persists the updated session; the
equal-length-association-bounded-by-50 invariant holds for every cached session
afterwards whenever it held before. -/
theorem addCommandToHistory_histories_invariant
    (st : WebGrab.CMState) (sid cmd resp : String) (now : Nat)
    (ctx : WebGrab.SessionContext)
    (hfind : mapFind sid st.sessionsCache = some ctx)
    (hinv : WebGrab.histInv ctx)
    (hall : ∀ k c, mapFind k st.sessionsCache = some c → WebGrab.histInv c) :
    (mapFind sid
        (WebGrab.ContextManager.addCommandToHistory st sid cmd resp now).sessionsCache =
      some { ctx with
        commandHistory := if ctx.commandHistory.length = 50
          then (ctx.commandHistory ++ [cmd]).drop 1 else ctx.commandHistory ++ [cmd]
        responseHistory := if ctx.commandHistory.length = 50
          then (ctx.responseHistory ++ [resp]).drop 1 else ctx.responseHistory ++ [resp]
        lastAccessed := now }) ∧
    (mapFind ctx.sessionId
        (WebGrab.ContextManager.addCommandToHistory st sid cmd resp now).sessionStore =
      some { ctx with
        commandHistory := if ctx.commandHistory.length = 50
          then (ctx.commandHistory ++ [cmd]).drop 1 else ctx.commandHistory ++ [cmd]
        responseHistory := if ctx.commandHistory.length = 50
          then (ctx.responseHistory ++ [resp]).drop 1 else ctx.responseHistory ++ [resp]
        lastAccessed := now }) ∧
    (∀ k c2, mapFind k
        (WebGrab.ContextManager.addCommandToHistory st sid cmd resp now).sessionsCache =
      some c2 → WebGrab.histInv c2) := by
  obtain ⟨hl, hb⟩ := hinv
  have hcond : (50 < (ctx.commandHistory ++ [cmd]).length) ↔
      (ctx.commandHistory.length = 50) := by
    simp only [List.length_append, List.length_cons, List.length_nil]
    omega
  unfold WebGrab.ContextManager.addCommandToHistory
  rw [hfind]
  simp only [hcond]
  refine ⟨mapFind_mapAssign_self _ _ _, mapFind_mapAssign_self _ _ _, ?_⟩
  intro k c2 hk
  by_cases hks : k = sid
  · subst hks
    rw [mapFind_mapAssign_self _ _ _] at hk
    cases hk
    constructor
    · by_cases h50 : ctx.commandHistory.length = 50 <;>
        simp only [h50, List.length_drop, List.length_append, List.length_cons,
          List.length_nil, if_true, if_false, reduceIte] <;> omega
    · by_cases h50 : ctx.commandHistory.length = 50 <;>
        simp only [h50, List.length_drop, List.length_append, List.length_cons,
          List.length_nil, if_true, if_false, reduceIte] <;> omega
  · rw [mapFind_mapAssign_ne _ _ _ _ hks] at hk
    exact hall k c2 hk

/-- Witness for C4 on the concrete one-session state. -/
theorem addCommandToHistory_histories_invariant_witness :
    mapFind "s"
        (WebGrab.ContextManager.addCommandToHistory WebGrab.stFix "s" "c" "r" 5).sessionsCache =
      some { WebGrab.ctxFix with
        commandHistory := if WebGrab.ctxFix.commandHistory.length = 50
          then (WebGrab.ctxFix.commandHistory ++ ["c"]).drop 1
          else WebGrab.ctxFix.commandHistory ++ ["c"]
        responseHistory := if WebGrab.ctxFix.commandHistory.length = 50
          then (WebGrab.ctxFix.responseHistory ++ ["r"]).drop 1
          else WebGrab.ctxFix.responseHistory ++ ["r"]
        lastAccessed := 5 } := by
  have hall : ∀ k c, mapFind k WebGrab.stFix.sessionsCache = some c → WebGrab.histInv c := by
    intro k c h
    by_cases hk : "s" = k
    · simp only [WebGrab.stFix, mapFind, if_pos hk] at h
      cases h
      exact ⟨rfl, by decide⟩
    · simp only [WebGrab.stFix, mapFind, if_neg hk] at h
      cases h
  exact (addCommandToHistory_histories_invariant WebGrab.stFix "s" "c" "r" 5 WebGrab.ctxFix
    rfl ⟨rfl, by decide⟩ hall).1

/-- Claim C7: one run of the expired-session cleanup deletes every cached
session whose lastAccessed lies more than 30 minutes (1800 seconds)
before now from both the cache and the durable store, and leaves every
session accessed within the last 30 minutes untouched in both. -/
theorem cleanupExpiredSessions_correct
    (st : WebGrab.CMState) (now : Nat) (sid : String) (ctx : WebGrab.SessionContext)
    (hnodup : (st.sessionsCache.map Prod.fst).Nodup)
    (hfind : mapFind sid st.sessionsCache = some ctx) :
    (1800 < now - ctx.lastAccessed →
      mapFind sid (WebGrab.ContextManager.cleanupExpiredSessions st now).sessionsCache = none ∧
      mapFind sid (WebGrab.ContextManager.cleanupExpiredSessions st now).sessionStore = none) ∧
    (now - ctx.lastAccessed < 1800 →
      mapFind sid (WebGrab.ContextManager.cleanupExpiredSessions st now).sessionsCache =
        some ctx ∧
      mapFind sid (WebGrab.ContextManager.cleanupExpiredSessions st now).sessionStore =
        mapFind sid st.sessionStore) := by
  constructor
  · intro hgt
    have hact : ctx.isActive now = false := by
      simp only [WebGrab.SessionContext.isActive, decide_eq_false_iff_not, not_lt]
      omega
    have hmem : sid ∈
        ((st.sessionsCache.filter (fun p => !(p.2.isActive now))).map Prod.fst) := by
      refine List.mem_map.mpr ⟨(sid, ctx), ?_, rfl⟩
      refine List.mem_filter.mpr ⟨mapFind_mem hfind, ?_⟩
      simp [hact]
    unfold WebGrab.ContextManager.cleanupExpiredSessions
    exact ⟨mapFind_foldlErase_of_mem _ _ hmem _, mapFind_foldlErase_of_mem _ _ hmem _⟩
  · intro hlt
    have hact : ctx.isActive now = true := by
      simp only [WebGrab.SessionContext.isActive, decide_eq_true_eq]
      omega
    have hnot : sid ∉
        ((st.sessionsCache.filter (fun p => !(p.2.isActive now))).map Prod.fst) := by
      intro hmem
      obtain ⟨p, hp, hfst⟩ := List.mem_map.mp hmem
      obtain ⟨a, b⟩ := p
      cases hfst
      obtain ⟨hpmem, hpact⟩ := List.mem_filter.mp hp
      have hfb : mapFind a st.sessionsCache = some b := mem_mapFind_of_nodup hnodup hpmem
      rw [hfind] at hfb
      cases hfb
      rw [hact] at hpact
      simp at hpact
    unfold WebGrab.ContextManager.cleanupExpiredSessions
    exact ⟨(mapFind_foldlErase_of_notmem _ _ hnot _).trans hfind,
      mapFind_foldlErase_of_notmem _ _ hnot _⟩

/-- Witness for C7: the concrete cached session "s" (lastAccessed 0) is
expired at now = 10000 and removed from both cache and store. -/
theorem cleanupExpiredSessions_correct_witness :
    mapFind "s"
        (WebGrab.ContextManager.cleanupExpiredSessions WebGrab.stFix 10000).sessionsCache =
      none ∧
    mapFind "s"
        (WebGrab.ContextManager.cleanupExpiredSessions WebGrab.stFix 10000).sessionStore =
      none :=
  (cleanupExpiredSessions_correct WebGrab.stFix 10000 "s" WebGrab.ctxFix
    (by decide) rfl).1 (by decide)

/-- Claim C9 counterexample: saveSessionContext writes
sessions/sess1.json by opening it directly: after the first filesystem
operation the target file is observable truncated to "" — a partially
written entity file, differing from both its previous content and the
serialized session — and the operation sequence contains no
temporary-file rename. -/
theorem saveSessionContext_not_atomic_cex :
    mapFind "sessions/sess1.json"
        (WebGrab.runOps [("sessions/sess1.json", "old")]
          ((WebGrab.saveSessionContextOps WebGrab.demoSession).take 1)) = some "" ∧
    (WebGrab.saveSessionContextOps WebGrab.demoSession).all (fun op => !op.isRen) = true ∧
    WebGrab.serializeSessionContext WebGrab.demoSession ≠ "" ∧
    WebGrab.serializeSessionContext WebGrab.demoSession ≠ "old" := by
  refine ⟨rfl, rfl, ?_, ?_⟩ <;> decide

/-- Claim C9 amended: entity writes are not atomic — saveSessionContext
and saveUserContext open the target file in place (truncating it) and
then stream the serialized text; no temporary file or rename is involved,
and between truncation and write the target is observable holding "",
which differs from the non-empty final content. -/
theorem save_direct_write_semantics (ctx : WebGrab.SessionContext)
    (u : WebGrab.UserContext) (fs : WebGrab.Fs) :
    mapFind (WebGrab.sessionFileName ctx.sessionId)
        (WebGrab.runOps fs ((WebGrab.saveSessionContextOps ctx).take 1)) = some "" ∧
    mapFind (WebGrab.sessionFileName ctx.sessionId)
        (WebGrab.runOps fs (WebGrab.saveSessionContextOps ctx)) =
      some (WebGrab.serializeSessionContext ctx) ∧
    (WebGrab.saveSessionContextOps ctx).all (fun op => !op.isRen) = true ∧
    WebGrab.serializeSessionContext ctx ≠ "" ∧
    mapFind (WebGrab.userFileName u.userId)
        (WebGrab.runOps fs ((WebGrab.saveUserContextOps u).take 1)) = some "" ∧
    (WebGrab.saveUserContextOps u).all (fun op => !op.isRen) = true ∧
    WebGrab.serializeUserContext u ≠ "" := by
  refine ⟨?_, ?_, rfl, ?_, ?_, rfl, ?_⟩
  · exact mapFind_mapAssign_self _ _ _
  · exact mapFind_mapAssign_self _ _ _
  · intro hserial
    have hlen := congrArg String.length hserial
    simp only [WebGrab.serializeSessionContext, String.length_append,
      String.length_empty] at hlen
    have h2 : ("\x7b\n" : String).length = 2 := rfl
    omega
  · exact mapFind_mapAssign_self _ _ _
  · intro hserial
    have hlen := congrArg String.length hserial
    simp only [WebGrab.serializeUserContext, String.length_append,
      String.length_empty] at hlen
    have h2 : ("\x7b\n" : String).length = 2 := rfl
    omega

end AiServis

